import Mathlib

/-
Verification of the calibration math engine of nano33_magnetic_calibration.

The embedding follows src/fit_functions.py and src/ellipsoid.py.  Numeric
values flowing through the fit functions are modelled by `NF`, exact
rationals extended with a NaN element, mirroring how numpy
double-precision arithmetic behaves on the code paths considered here
(operations on NaN yield NaN, comparisons with NaN are false, `np.sqrt`
of a negative number yields NaN and a warning, not an exception).  Two
deliberate restrictions, noted again where they matter: division by zero
is mapped to NaN (numpy would produce inf for a nonzero numerator; no
path evaluated below divides a nonzero number by zero), and the square
root of a nonnegative rational is computed exactly (every path evaluated
below takes square roots of exact rational squares only).

The spherical-mesh and coverage-tracker code (src/ellipsoid.py) involves
no NaN and is embedded over plain rationals; angles are measured in units
of pi, so the value 1 stands for the angle pi.
-/

inductive NF where
  | nan : NF
  | val : ℚ → NF
deriving DecidableEq

namespace NF

def add : NF → NF → NF
  | nan, _ => nan
  | _, nan => nan
  | val a, val b => val (a + b)

def mul : NF → NF → NF
  | nan, _ => nan
  | _, nan => nan
  | val a, val b => val (a * b)

def neg : NF → NF
  | nan => nan
  | val a => val (-a)

def sub : NF → NF → NF
  | nan, _ => nan
  | _, nan => nan
  | val a, val b => val (a - b)

/-- Division; `x / 0` is mapped to NaN (see the header note). -/
def div : NF → NF → NF
  | nan, _ => nan
  | _, nan => nan
  | val a, val b => if b = 0 then nan else val (a / b)

instance : Add NF := ⟨add⟩
instance : Mul NF := ⟨mul⟩
instance : Neg NF := ⟨neg⟩
instance : Sub NF := ⟨sub⟩
instance : Div NF := ⟨div⟩
instance (n : ℕ) : OfNat NF n := ⟨val (OfNat.ofNat n)⟩

/-- Embedding of `np.abs`. -/
def abs : NF → NF
  | nan => nan
  | val a => val |a|

/-- Exact square root of a nonnegative rational; exact whenever numerator
and denominator are perfect squares, which holds at every point where the
theorems below evaluate it (numpy computes the floating approximation). -/
def ratSqrt (a : ℚ) : ℚ := (Nat.sqrt a.num.toNat : ℚ) / (Nat.sqrt a.den : ℚ)

/-- Embedding of `np.sqrt`: NaN on negative input (numpy emits a warning and continues
with NaN rather than raising). -/
def sqrt : NF → NF
  | nan => nan
  | val a => if a < 0 then nan else val (ratSqrt a)

/-- Binary maximum as used by `np.max`: NaN propagates. -/
def max2 : NF → NF → NF
  | nan, _ => nan
  | _, nan => nan
  | val a, val b => val (max a b)

/-- numpy elementwise `==`: false whenever either side is NaN. -/
def eqb : NF → NF → Bool
  | val a, val b => decide (a = b)
  | _, _ => false

/-- numpy `<`: false whenever either side is NaN. -/
def ltb : NF → NF → Bool
  | val a, val b => decide (a < b)
  | _, _ => false

/-- Embedding of `np.max` over a sequence (left fold; the code below never applies it
to an empty array). -/
def listMax : List NF → NF
  | [] => nan
  | h :: t => t.foldl max2 h

/-- Sum of a list, as `np.sum` (left fold from 0). -/
def listSum (l : List NF) : NF := l.foldl add (val 0)

/-- Embedding of `np.mean`: sum divided by length; on an empty array numpy produces
NaN, which the division by zero reproduces here. -/
def listMean (l : List NF) : NF := listSum l / val (l.length : ℚ)

end NF

/- 3-vectors and 3x3 matrices over `NF`, as index functions. -/

abbrev Vec3 := Fin 3 → NF

abbrev Mat3 := Fin 3 → Fin 3 → NF

/-- Componentwise decidable equality for 3-vectors that the kernel can
evaluate (the generic finite-pi instance gets stuck during `decide`). -/
instance : DecidableEq Vec3 := fun u v =>
  decidable_of_iff (u 0 = v 0 ∧ u 1 = v 1 ∧ u 2 = v 2)
    (by
      constructor
      · rintro ⟨h0, h1, h2⟩
        funext k
        fin_cases k <;> assumption
      · intro h
        exact ⟨congrFun h 0, congrFun h 1, congrFun h 2⟩)

instance : DecidableEq Mat3 := fun a b =>
  decidable_of_iff (a 0 = b 0 ∧ a 1 = b 1 ∧ a 2 = b 2)
    (by
      constructor
      · rintro ⟨h0, h1, h2⟩
        funext i
        fin_cases i <;> assumption
      · intro h
        exact ⟨congrFun h 0, congrFun h 1, congrFun h 2⟩)

/-- Embedding of `np.transpose` on a 3x3 array. -/
def transposeM (m : Mat3) : Mat3 := fun i j => m j i

/-- Embedding of `np.diag` applied to a 3-vector. -/
def diagM (v : Vec3) : Mat3 := fun i j => if i = j then v i else NF.val 0

/-- The value `np.diag(np.ones(3))`, the 3x3 identity returned by the non-rotated
fit functions as their rotation. -/
def eye3 : Mat3 := diagM (fun _ => NF.val 1)

/-- Embedding of `np.matmul` on 3x3 arrays (inner sum in ascending index order). -/
def matMul (a b : Mat3) : Mat3 := fun i j =>
  a i 0 * b 0 j + a i 1 * b 1 j + a i 2 * b 2 j

/-- The nine index pairs of a 3x3 array in row-major order, the order in
which `np.where` reports matches. -/
def rowMajor3 : List (Fin 3 × Fin 3) :=
  [(0, 0), (0, 1), (0, 2), (1, 0), (1, 1), (1, 2), (2, 0), (2, 1), (2, 2)]

/-- The four index pairs of a 2x2 array in row-major order. -/
def rowMajor2 : List (Fin 2 × Fin 2) := [(0, 0), (0, 1), (1, 0), (1, 1)]

/-- The value `np.abs(m).max()` over a 3x3 array. -/
def matAbsMax (m : Mat3) : NF :=
  NF.listMax (rowMajor3.map (fun p => NF.abs (m p.1 p.2)))

/-- Embedding of `rm, cm = np.where(np.abs(m) == np.abs(m).max()); rm, cm = rm[0], cm[0]`:
the first row-major position whose absolute value equals the maximum.
`none` models the IndexError Python raises when `np.where` returns no
position, which can happen only when the maximum is NaN (NaN == NaN is
false in numpy). -/
def whereFirstMax3 (m : Mat3) : Option (Fin 3 × Fin 3) :=
  rowMajor3.find? (fun p => NF.eqb (NF.abs (m p.1 p.2)) (matAbsMax m))

/-- Same first-maximum search on a 2x2 array. -/
def whereFirstMax2 (m : Fin 2 → Fin 2 → NF) : Option (Fin 2 × Fin 2) :=
  rowMajor2.find? (fun p =>
    NF.eqb (NF.abs (m p.1 p.2)) (NF.listMax (rowMajor2.map (fun q => NF.abs (m q.1 q.2)))))

/-- Embedding of `refine_rotation_matrix` from src/fit_functions.py (lines 269-322), as
a function on values (the Python version mutates `gain` and `rot` in place
and returns them).  Steps: (1) move the globally largest-magnitude entry
onto the diagonal by a full column swap, swapping the two matching gains;
(2) the same for the 2x2 submatrix on the remaining two axes, writing back
only the four submatrix entries; (3) flip the sign of each column whose
diagonal entry is negative. -/
def refine_rotation_matrix (gain : Vec3) (rot : Mat3) : Option (Vec3 × Mat3) :=
  match whereFirstMax3 rot with
  | none => none
  | some (rm, cm) =>
    let rot1 : Mat3 := if rm ≠ cm then
        (fun i j => if j = cm then rot i rm else if j = rm then rot i cm else rot i j)
      else rot
    let gain1 : Vec3 := if rm ≠ cm then
        (fun k => if k = cm then gain rm else if k = rm then gain cm else gain k)
      else gain
    let p : Fin 3 × Fin 3 := if rm = 0 then (1, 2) else if rm = 1 then (0, 2) else (0, 1)
    let i0 := p.1
    let i1 := p.2
    let a00 := rot1 i0 i0
    let a01 := rot1 i0 i1
    let a10 := rot1 i1 i0
    let a11 := rot1 i1 i1
    match whereFirstMax2 ![![a00, a01], ![a10, a11]] with
    | none => none
    | some (rm2, cm2) =>
      let rot2 : Mat3 := if rm2 ≠ cm2 then
          (fun i j =>
            if i = i0 ∧ j = i0 then a01
            else if i = i0 ∧ j = i1 then a00
            else if i = i1 ∧ j = i0 then a11
            else if i = i1 ∧ j = i1 then a10
            else rot1 i j)
        else rot1
      let gain2 : Vec3 := if rm2 ≠ cm2 then
          (fun k => if k = i0 then gain1 i1 else if k = i1 then gain1 i0 else gain1 k)
        else gain1
      let rot3 : Mat3 := if NF.ltb (rot2 0 0) 0 then
          (fun i j => if j = 0 then - rot2 i j else rot2 i j) else rot2
      let rot4 : Mat3 := if NF.ltb (rot3 1 1) 0 then
          (fun i j => if j = 1 then - rot3 i j else rot3 i j) else rot3
      let rot5 : Mat3 := if NF.ltb (rot4 2 2) 0 then
          (fun i j => if j = 2 then - rot4 i j else rot4 i j) else rot4
      some (gain2, rot5)

/- Reification of vectors and matrices as concrete lists, used to state
closed evaluations (the kernel cannot decide extensional equality of
index functions directly). -/

def vecList (v : Vec3) : List NF := [v 0, v 1, v 2]

def matList (m : Mat3) : List (List NF) := [vecList (m 0), vecList (m 1), vecList (m 2)]

/-- The function `refine_rotation_matrix` with the result read back as lists. -/
def refineList (gain : Vec3) (rot : Mat3) : Option (List NF × List (List NF)) :=
  (refine_rotation_matrix gain rot).map (fun x => (vecList x.1, matList x.2))

/-- The 4x4 homogeneous quadric matrix `A_4` exactly as assembled by
`fit_ellipsoid_rotated` (src/fit_functions.py line 150) and
`fit_ellipsoid_rotated_alt` (line 240) from the solved coefficients:
`np.array([[a, d, e, g], [d, b, f, g], [e, f, c, i], [g, h, i, -1]])`. -/
def A_4 (a b c d e f g h i : ℚ) : Fin 4 → Fin 4 → ℚ :=
  ![![a, d, e, g], ![d, b, f, g], ![e, f, c, i], ![g, h, i, -1]]

/-- Tail of `fit_ellipsoid_rotated` (src/fit_functions.py lines 167-176)
and, identically, of `fit_ellipsoid_rotated_alt` (lines 257-266), from the
point where `np.linalg.eig` has returned: semi-axes are the square roots
of the reciprocal eigenvalues, the transposed eigenvector matrix is passed
through `refine_rotation_matrix`, and the four result values are returned.
There is no check on the sign of the eigenvalues anywhere in this code. -/
def fit_rotated_eig_tail (eigenvalues : Vec3) (eigenvectors : Mat3) (offset : Vec3) :
    Option (Mat3 × Vec3 × Vec3 × Mat3) :=
  let semi_axes : Vec3 := fun k => NF.sqrt ((1 : NF) / eigenvalues k)
  let rotation := transposeM eigenvectors
  match refine_rotation_matrix semi_axes rotation with
  | none => none
  | some (sa, rot) =>
    let soft_iron := matMul (diagM (fun k => (1 : NF) / sa k)) rot
    some (soft_iron, offset, sa, rot)

/-- The function `fit_rotated_eig_tail` with the result read back as lists. -/
def fitRotatedTailList (eigenvalues : Vec3) (eigenvectors : Mat3) (offset : Vec3) :
    Option (List (List NF) × List NF × List NF × List (List NF)) :=
  (fit_rotated_eig_tail eigenvalues eigenvectors offset).map
    (fun r => (matList r.1, vecList r.2.1, vecList r.2.2.1, matList r.2.2.2))

/- The registered fit functions.  The scipy optimizer `fmin_bfgs` is an
external collaborator; the fits are therefore parameterized by the
optimizer, a function receiving the loss closure and the initial guess
and returning the solved parameters, exactly the data the source hands to
and receives from `scipy.optimize.fmin_bfgs`. -/

abbrev Params4 := Fin 4 → NF

abbrev Params6 := Fin 6 → NF

/-- The `params_guess` of `fit_sphere` (src/fit_functions.py line 63):
`np.array([1.0, 0.0, 0.0, 0.0])`, a constant independent of the data. -/
def sphere_params_guess : Params4 := ![1, 0, 0, 0]

/-- The `params_guess` of `fit_ellipsoid_nonrotated` (line 100):
`np.array([1.0, 1.0, 1.0, 0.0, 0.0, 0.0])`, a constant independent of
the data. -/
def nonrotated_params_guess : Params6 := ![1, 1, 1, 0, 0, 0]

/-- The `params_guess` of `fit_ellipsoid_rotated` (line 145): nine ones. -/
def rotated_params_guess : Fin 9 → NF := fun _ => 1

/-- The `u_guess` of `fit_ellipsoid_rotated_alt` (line 215): nine ones. -/
def rotated_alt_u_guess : Fin 9 → NF := fun _ => 1

/-- Elementwise ternary zip (numpy broadcasting over same-length arrays). -/
def zip3With (f : NF → NF → NF → NF) : List NF → List NF → List NF → List NF
  | a :: as_, b :: bs, c :: cs => f a b c :: zip3With f as_ bs cs
  | _, _, _ => []

/-- Elementwise sum of two same-length arrays. -/
def addL (a b : List NF) : List NF := List.zipWith (fun u v => u + v) a b

/-- Scalar times array. -/
def scaleL (c : NF) (l : List NF) : List NF := l.map (fun v => c * v)

/-- Embedding of `fit_sphere` from src/fit_functions.py (lines 47-74), with the scipy
optimizer as a parameter.  The function performs no check whatsoever on
the number of sample points: it builds the design data, invokes the
optimizer on the loss starting from the constant guess, and derives the
calibration values from whatever parameters come back. -/
def fit_sphere (opt : (Params4 → NF) → Params4 → Params4) (x y z : List NF) :
    Mat3 × Vec3 × Vec3 × Mat3 :=
  let fd0 := zip3With (fun a b c => a * a + b * b + c * c) x y z
  let fd1 := scaleL 2 x
  let fd2 := scaleL 2 y
  let fd3 := scaleL 2 z
  let predict := fun (p : Params4) =>
    addL (addL (addL (scaleL (p 0) fd0) (scaleL (p 1) fd1)) (scaleL (p 2) fd2)) (scaleL (p 3) fd3)
  let loss := fun (p : Params4) =>
    NF.listMean ((predict p).map (fun v => (v - 1) * (v - 1)))
  let params := opt loss sphere_params_guess
  let a := params 0
  let g := params 1
  let h := params 2
  let i := params 3
  let offset : Vec3 := ![(-1 : NF) * (g / a), (-1 : NF) * (h / a), (-1 : NF) * (i / a)]
  let G := (1 : NF) + g * g / a + h * h / a + i * i / a
  let gain : Vec3 := ![NF.sqrt (a / G), NF.sqrt (a / G), NF.sqrt (a / G)]
  let soft_iron := diagM gain
  let semi_axes : Vec3 := fun k => (1 : NF) / gain k
  (soft_iron, offset, semi_axes, eye3)

/-- Embedding of `fit_ellipsoid_nonrotated` from src/fit_functions.py (lines 77-111),
with the scipy optimizer as a parameter.  Like `fit_sphere` it performs
no check on the number of sample points. -/
def fit_ellipsoid_nonrotated (opt : (Params6 → NF) → Params6 → Params6) (x y z : List NF) :
    Mat3 × Vec3 × Vec3 × Mat3 :=
  let fd0 := x.map (fun v => v * v)
  let fd1 := y.map (fun v => v * v)
  let fd2 := z.map (fun v => v * v)
  let fd3 := scaleL 2 x
  let fd4 := scaleL 2 y
  let fd5 := scaleL 2 z
  let predict := fun (p : Params6) =>
    addL (addL (addL (addL (addL (scaleL (p 0) fd0) (scaleL (p 1) fd1)) (scaleL (p 2) fd2))
      (scaleL (p 3) fd3)) (scaleL (p 4) fd4)) (scaleL (p 5) fd5)
  let loss := fun (p : Params6) =>
    NF.listMean ((predict p).map (fun v => (v - 1) * (v - 1)))
  let params := opt loss nonrotated_params_guess
  let a := params 0
  let b := params 1
  let c := params 2
  let g := params 3
  let h := params 4
  let i := params 5
  let offset : Vec3 := ![(-1 : NF) * (g / a), (-1 : NF) * (h / b), (-1 : NF) * (i / c)]
  let G := (1 : NF) + g * g / a + h * h / b + i * i / c
  let gain : Vec3 := ![NF.sqrt (a / G), NF.sqrt (b / G), NF.sqrt (c / G)]
  let soft_iron := diagM gain
  let semi_axes : Vec3 := fun k => (1 : NF) / gain k
  (soft_iron, offset, semi_axes, eye3)

/-- A fit result read back as lists. -/
def calibList (r : Mat3 × Vec3 × Vec3 × Mat3) :
    List (List NF) × List NF × List NF × List (List NF) :=
  (matList r.1, vecList r.2.1, vecList r.2.2.1, matList r.2.2.2)

/- The legacy non-rotated fit of src/ellipsoid.py (fitEllipsoidNonRotated,
lines 61-94) parameterizes by center and semi-axes directly and builds its
initial guess from the data; only that guess construction (lines 64-73) is
relevant to the claims.  It involves no NaN and is embedded over ℚ. -/

/-- Embedding of `np.mean` over ℚ (empty input never occurs in the claims below). -/
def npMean (l : List ℚ) : ℚ := l.sum / l.length

/-- Embedding of `np.ndarray.max` over ℚ. -/
def npMax : List ℚ → ℚ
  | [] => 0
  | h :: t => t.foldl max h

/-- Embedding of `np.ndarray.min` over ℚ. -/
def npMin : List ℚ → ℚ
  | [] => 0
  | h :: t => t.foldl min h

/-- The `gamma_guess` of `fitEllipsoidNonRotated` (src/ellipsoid.py lines
64-73): offsets from the per-axis means, semi-axes from half the per-axis
ranges. -/
def gamma_guess (x y z : List ℚ) : Fin 6 → ℚ :=
  ![npMean x, npMean y, npMean z,
    (npMax x - npMin x) / 2, (npMax y - npMin y) / 2, (npMax z - npMin z) / 2]

/- Spherical mesh and coverage tracking, src/ellipsoid.py.  Angles carry
units of pi: the rational 1 stands for the angle pi. -/

/-- Embedding of `np.linspace(start, stop, num)` with endpoint=True: `num` evenly
spaced values; for `num = 1` numpy returns just `[start]`, for `num = 0`
the empty array. -/
def npLinspace (start stop : ℚ) (num : ℕ) : List ℚ :=
  if num = 1 then [start]
  else (List.range num).map (fun k : ℕ => start + (k : ℚ) * (stop - start) / ((num : ℚ) - 1))

/-- Embedding of `np.meshgrid(xs, ys)` (dense): first output repeats `xs` as rows,
second output holds `ys` constant along each row; both have shape
(length ys) x (length xs). -/
def npMeshgrid (xs ys : List ℚ) : List (List ℚ) × List (List ℚ) :=
  (ys.map (fun _ => xs), ys.map (fun v => xs.map (fun _ => v)))

/-- Embedding of `makeSphericalMesh` from src/ellipsoid.py (lines 11-21): asserts
`N > 0`, then meshes `np.linspace(0, pi, N)` against
`np.linspace(-pi, pi, N)`.  In units of pi: linspace 0..1 and -1..1.
`none` models the failed assertion. -/
def makeSphericalMesh (N : ℤ) : Option (List (List ℚ) × List (List ℚ)) :=
  if 0 < N then
    some (npMeshgrid (npLinspace 0 1 N.toNat) (npLinspace (-1) 1 N.toNat))
  else none

/-- A coverage cell: the four grid-corner vertices handed to
`matplotlib.path.Path`. -/
abbrev Cell := List (ℚ × ℚ)

/-- A (polar angle, azimuth) point. -/
abbrev Point := ℚ × ℚ

/-- Entry `m[i][j]` of a 2-D array (always used within bounds below). -/
def ent (m : List (List ℚ)) (i j : ℕ) : ℚ := (m.getD i []).getD j 0

/-- The shape of a rectangular 2-D array (`none` on a ragged list, which
cannot arise from a numpy array). -/
def npShape (m : List (List ℚ)) : Option (ℕ × ℕ) :=
  match m with
  | [] => some (0, 0)
  | r :: _ => if m.all (fun row => row.length = r.length) then some (m.length, r.length) else none

/-- Embedding of `makePaths` from src/ellipsoid.py (lines 128-156): asserts equal
shapes and a square grid, then builds one quadrilateral per grid square,
iterating `i` and `j` over `range(w.shape[0] - 1)` with `j` innermost.
`none` models a failed assertion. -/
def makePaths (w q : List (List ℚ)) : Option (List Cell) :=
  match npShape w, npShape q with
  | some sw, some sq =>
    if sw = sq ∧ sw.1 = sw.2 then
      some (((List.range (sw.1 - 1)).map (fun i =>
        (List.range (sw.1 - 1)).map (fun j =>
          [(ent w i j, ent q i j), (ent w i (j + 1), ent q i (j + 1)),
            (ent w (i + 1) (j + 1), ent q (i + 1) (j + 1)),
            (ent w (i + 1) j, ent q (i + 1) j)]))).flatten)
    else none
  | _, _ => none

/-- The coverage tracker `SphereSampling` (src/ellipsoid.py lines
163-194): the cell list and the 0/1 sampled array (`np.zeros`). -/
structure SphereSampling where
  segments : List Cell
  sampled : List ℚ
deriving DecidableEq

/-- Index of the first list element satisfying the test, as the
`for i, segment in enumerate(...)` loop scans it. -/
def findFirstIdx (f : α → Bool) : List α → Option ℕ
  | [] => none
  | a :: t => if f a then some 0 else (findFirstIdx f t).map (fun n => n + 1)

namespace SphereSampling

/-- Embedding of `SphereSampling.__init__`: build the mesh at resolution N, the cell
partition, and the all-zero sampled array. -/
def init (N : ℤ) : Option SphereSampling :=
  match makeSphericalMesh N with
  | none => none
  | some (pa, az) =>
    match makePaths pa az with
    | none => none
    | some segs => some ⟨segs, List.replicate segs.length 0⟩

/-- Embedding of `update_single_point` (lines 174-181), parameterized by the
matplotlib point-in-polygon test `cfn` (`Path.contains_point`, an
external library call): mark the first containing cell and return, else
raise `SamplingError` carrying the point. -/
def update_single_point (cfn : Cell → Point → Bool) (s : SphereSampling) (p : Point) :
    Except Point SphereSampling :=
  match findFirstIdx (fun seg => cfn seg p) s.segments with
  | some i => .ok ⟨s.segments, s.sampled.set i 1⟩
  | none => .error p

/-- Embedding of `update` (lines 183-185): apply `update_single_point` to each point
in order.  The Python object keeps the marks already made when an
exception escapes, so the embedding returns the state reached together
with the offending point, if any. -/
def update (cfn : Cell → Point → Bool) (s : SphereSampling) :
    List Point → SphereSampling × Option Point
  | [] => (s, none)
  | p :: rest =>
    match update_single_point cfn s p with
    | .ok s2 => update cfn s2 rest
    | .error e => (s, some e)

/-- Embedding of `get_count` (lines 187-188): `np.count_nonzero(self.sampled)`. -/
def get_count (s : SphereSampling) : ℕ :=
  List.countP (fun v => decide (v ≠ 0)) s.sampled

/-- Embedding of `get_percentage` (lines 190-191):
`np.count_nonzero(self.sampled) / len(self.sampled)`. -/
def get_percentage (s : SphereSampling) : ℚ :=
  (List.countP (fun v => decide (v ≠ 0)) s.sampled : ℚ) / (s.sampled.length : ℚ)

end SphereSampling

/-- A sequence of `update` calls against one tracker object (a single
`update_single_point p` call is `update [p]`); each call's possible
exception is absorbed by the caller, the object persists. -/
def runCalls (cfn : Cell → Point → Bool) (s : SphereSampling) (calls : List (List Point)) :
    SphereSampling :=
  calls.foldl (fun st c => (SphereSampling.update cfn st c).1) s


/-- Concrete mesh at resolution 5, used by the C8 witness (values in
units of pi). -/
def meshPolar5 : List (List ℚ) := List.replicate 5 [0, 1/4, 1/2, 3/4, 1]

/-- Azimuth half of the concrete resolution-5 mesh. -/
def meshAzimuth5 : List (List ℚ) :=
  [List.replicate 5 (-1), List.replicate 5 (-(1/2)), List.replicate 5 0,
    List.replicate 5 (1/2), List.replicate 5 1]

/-- Concrete resolution-2 tracker state (one cell, unsampled), as
produced by `SphereSampling.init 2`. -/
def trackerN2 : SphereSampling := ⟨[[(0, -1), (1, -1), (1, 1), (0, 1)]], [0]⟩

/- Theorems.  Claim-level statements follow; the concrete inputs were
hand-traced against the Python source and are checked here by kernel
computation. -/

/-- C1: the claim states that the 4x4 homogeneous quadric matrix
assembled by the rotated-ellipsoid fits is symmetric, with the entries at
(row 1, column 3) and (row 3, column 1) both equal to the coefficient h.
The source places g at (1, 3) and h at (3, 1), so the matrix is
asymmetric whenever g differs from h: at coefficients
(a,b,c,d,e,f,g,h,i) = (1,1,1,0,0,0,0,1,0) the two entries are 0 and 1. -/
theorem A4_entry_asymmetric_C1 :
    A_4 1 1 1 0 0 0 0 1 0 1 3 = 0 ∧ A_4 1 1 1 0 0 0 0 1 0 3 1 = 1 ∧
    A_4 1 1 1 0 0 0 0 1 0 1 3 ≠ A_4 1 1 1 0 0 0 0 1 0 3 1 := by
  with_unfolding_all decide

/-- C2: on gain [1,2,3] and the permutation matrix with ones at (0,2),
(1,0), (2,1), `refine_rotation_matrix` returns gain [3,1,2] and the
identity rotation. -/
theorem refine_permutation_C2 :
    refineList ![1, 2, 3] ![![0, 0, 1], ![1, 0, 0], ![0, 1, 0]]
      = some ([3, 1, 2], matList eye3) := by
  with_unfolding_all decide

/-- C3, counterexample: `refine_rotation_matrix` is not idempotent.  On
gain [1,2,3] and the matrix [[0,0,0],[2,2,0],[0,0,1]] (two tied maximal
entries in row 1), one application returns gain [2,1,3] with the matrix
unchanged, and a second application swaps the gains back to [1,2,3]: the
two-fold application differs from the single application. -/
theorem refine_not_idempotent_C3 :
    ((refine_rotation_matrix ![1, 2, 3] ![![0, 0, 0], ![2, 2, 0], ![0, 0, 1]]).bind
        (fun x => refine_rotation_matrix x.1 x.2))
      ≠ refine_rotation_matrix ![1, 2, 3] ![![0, 0, 0], ![2, 2, 0], ![0, 0, 1]] ∧
    refineList ![1, 2, 3] ![![0, 0, 0], ![2, 2, 0], ![0, 0, 1]]
      = some ([2, 1, 3], [[0, 0, 0], [2, 2, 0], [0, 0, 1]]) ∧
    refineList ![2, 1, 3] ![![0, 0, 0], ![2, 2, 0], ![0, 0, 1]]
      = some ([1, 2, 3], [[0, 0, 0], [2, 2, 0], [0, 0, 1]]) := by
  with_unfolding_all decide

/-- C3, amended: `refine_rotation_matrix(gain, identity)` returns
(gain, identity) unchanged for every gain vector; idempotence on
arbitrary inputs fails (see the counterexample) because tied maximal
magnitudes make a second application swap the gains again. -/
theorem refine_identity_unchanged_C3 :
    ∀ gain : Vec3, refine_rotation_matrix gain eye3 = some (gain, eye3) :=
  fun _ => rfl

/-- C4: the claim states that a non-positive eigenvalue after the
re-centering step makes the rotated fits fail with a distinct error and
return no result.  The code has no such check: at eigenvalues
(-1, 1/4, 1/4) with identity eigenvectors (as produced, for example, by
the diagonal re-centered block diag(-1, 1/4, 1/4)), the tail of
`fit_ellipsoid_rotated` runs to completion and returns a calibration
tuple whose first semi-axis is NaN (np.sqrt of the negative reciprocal)
and whose soft-iron row 0 is all NaN. -/
theorem rotated_fit_nonpositive_eigenvalue_returns_C4 :
    fitRotatedTailList ![NF.val (-1), NF.val (1/4), NF.val (1/4)] eye3 ![0, 0, 0]
      = some ([[NF.nan, NF.nan, NF.nan], [0, NF.val (1/2), 0], [0, 0, NF.val (1/2)]],
          [0, 0, 0], [NF.nan, 2, 2], matList eye3) := by
  with_unfolding_all decide

/-- C5: the claim states that every fit strategy fails with an
underdetermined-system error, before invoking the optimizer, when given
fewer samples than free coefficients.  `fit_sphere` has 4 free
coefficients but performs no sample-count check: on the 2-point input
x = y = z = [1, 2] it runs to completion, and its result is determined by
the optimizer's output (two different optimizers yield two different
calibration tuples), so the optimizer is reached and no error precedes
it. -/
theorem fit_sphere_underdetermined_no_error_C5 :
    calibList (fit_sphere (fun _ p0 => p0)
        [NF.val 1, NF.val 2] [NF.val 1, NF.val 2] [NF.val 1, NF.val 2])
      = (matList eye3, [0, 0, 0], [1, 1, 1], matList eye3) ∧
    calibList (fit_sphere (fun _ _ => ![1, 1, 1, 1])
        [NF.val 1, NF.val 2] [NF.val 1, NF.val 2] [NF.val 1, NF.val 2])
      = ([[NF.val (1/2), 0, 0], [0, NF.val (1/2), 0], [0, 0, NF.val (1/2)]],
          [-1, -1, -1], [2, 2, 2], matList eye3) ∧
    fit_sphere (fun _ p0 => p0)
        [NF.val 1, NF.val 2] [NF.val 1, NF.val 2] [NF.val 1, NF.val 2]
      ≠ fit_sphere (fun _ _ => ![1, 1, 1, 1])
        [NF.val 1, NF.val 2] [NF.val 1, NF.val 2] [NF.val 1, NF.val 2] := by
  with_unfolding_all decide

/-- C9, counterexample: the claim states that the sphere fit's initial
guess has offset components equal to the per-axis sample means.  The
guess is the constant [1, 0, 0, 0] whatever the samples: running
`fit_sphere` with an optimizer that performs zero iterations (returning
its initial guess) on samples x = y = z = [4, 6], whose per-axis mean is
5, yields the offset (0, 0, 0) encoded by the guess, not (5, 5, 5). -/
theorem fit_sphere_guess_not_sample_mean_C9 :
    calibList (fit_sphere (fun _ p0 => p0)
        [NF.val 4, NF.val 6] [NF.val 4, NF.val 6] [NF.val 4, NF.val 6])
      = (matList eye3, [0, 0, 0], [1, 1, 1], matList eye3) ∧
    NF.listMean [NF.val 4, NF.val 6] = NF.val 5 ∧
    (0 : NF) ≠ NF.val 5 := by
  with_unfolding_all decide

/-- C9, amended: the registered sphere and non-rotated-ellipsoid fits
start the optimizer from fixed guesses independent of the samples
([1,0,0,0] and [1,1,1,0,0,0]; with a zero-iteration optimizer both fits
return offset 0 and unit gains for every sample set), and the rotated
variants start from all-unit coefficients.  Only the legacy
`fitEllipsoidNonRotated` in src/ellipsoid.py builds its guess from the
data: per-axis sample means for the offsets and half the per-axis sample
ranges for the semi-axes. -/
theorem fit_guesses_amended_C9 :
    (∀ x y z : List NF, calibList (fit_sphere (fun _ p0 => p0) x y z)
        = (matList eye3, [0, 0, 0], [1, 1, 1], matList eye3)) ∧
    (∀ x y z : List NF, calibList (fit_ellipsoid_nonrotated (fun _ p0 => p0) x y z)
        = (matList eye3, [0, 0, 0], [1, 1, 1], matList eye3)) ∧
    (∀ k, rotated_params_guess k = 1) ∧
    (∀ k, rotated_alt_u_guess k = 1) ∧
    (∀ x y z : List ℚ, x ≠ [] → y ≠ [] → z ≠ [] →
      gamma_guess x y z 0 = npMean x ∧ gamma_guess x y z 1 = npMean y ∧
      gamma_guess x y z 2 = npMean z ∧
      gamma_guess x y z 3 = (npMax x - npMin x) / 2 ∧
      gamma_guess x y z 4 = (npMax y - npMin y) / 2 ∧
      gamma_guess x y z 5 = (npMax z - npMin z) / 2) := by
  refine ⟨?_, ?_, fun _ => rfl, fun _ => rfl, ?_⟩
  · intro x y z
    with_unfolding_all rfl
  · intro x y z
    with_unfolding_all rfl
  · intro x y z _ _ _
    exact ⟨rfl, rfl, rfl, rfl, rfl, rfl⟩

/-- C9, witness for the amended theorem at concrete inputs: the legacy
guess on x = [4, 6], y = [1, 3], z = [2, 10] matches means and half
ranges. -/
theorem fit_guesses_amended_C9_witness :
    gamma_guess [4, 6] [1, 3] [2, 10] 0 = npMean [4, 6] ∧
    gamma_guess [4, 6] [1, 3] [2, 10] 3 = (npMax [4, 6] - npMin [4, 6]) / 2 ∧
    calibList (fit_sphere (fun _ p0 => p0) [NF.val 7] [NF.val 7] [NF.val 7])
      = (matList eye3, [0, 0, 0], [1, 1, 1], matList eye3) := by
  have h := fit_guesses_amended_C9
  have h5 := h.2.2.2.2 [4, 6] [1, 3] [2, 10] (by decide) (by decide) (by decide)
  exact ⟨h5.1, h5.2.2.2.1, h.1 [NF.val 7] [NF.val 7] [NF.val 7]⟩

/- Helper lemmas about npLinspace and the mesh. -/

theorem npLinspace_length (a b : ℚ) (n : ℕ) : (npLinspace a b n).length = n := by
  unfold npLinspace
  split
  · simp [*]
  · simp

theorem npLinspace_getD (a b : ℚ) (n j : ℕ) (h2 : 2 ≤ n) (hj : j < n) :
    (npLinspace a b n).getD j 0 = a + j * (b - a) / ((n : ℚ) - 1) := by
  unfold npLinspace
  rw [if_neg (by omega)]
  rw [List.getD_eq_getElem _ _ (by simpa using hj)]
  simp

/-- C8, amended: the spherical-mesh constructor fails (assertion) for
N ≤ 0, and for every N ≥ 2 it returns two N x N arrays whose polar-angle
values run from exactly 0 to exactly pi (the rational 1 in units of pi)
with uniform spacing pi/(N-1), and whose azimuth values run from -pi to
pi (a full turn) with uniform spacing 2*pi/(N-1).  The claim as frozen
asserts this for every N > 0; it fails at N = 1, where numpy's linspace
returns only the start point (see the counterexample). -/
theorem makeSphericalMesh_spec_C8 : ∀ N : ℤ,
    (N ≤ 0 → makeSphericalMesh N = none) ∧
    (2 ≤ N → ∀ pa az, makeSphericalMesh N = some (pa, az) →
      pa.length = N.toNat ∧ az.length = N.toNat ∧
      (∀ r ∈ pa, r.length = N.toNat) ∧ (∀ r ∈ az, r.length = N.toNat) ∧
      (∀ r ∈ pa, r.getD 0 0 = 0 ∧ r.getD (N.toNat - 1) 0 = 1 ∧
        ∀ j, j + 1 < N.toNat → r.getD (j + 1) 0 - r.getD j 0 = 1 / ((N : ℚ) - 1)) ∧
      (∀ j, j < N.toNat → (az.getD 0 []).getD j 0 = -1) ∧
      (∀ j, j < N.toNat → (az.getD (N.toNat - 1) []).getD j 0 = 1) ∧
      (∀ i j, i + 1 < N.toNat → j < N.toNat →
        (az.getD (i + 1) []).getD j 0 - (az.getD i []).getD j 0 = 2 / ((N : ℚ) - 1))) := by
  intro N
  constructor
  · intro hN
    unfold makeSphericalMesh
    rw [if_neg (by omega)]
  · intro h2 pa az hm
    have hn2 : 2 ≤ N.toNat := by omega
    have hNQ : ((N.toNat : ℚ)) = (N : ℚ) := by
      have h := Int.toNat_of_nonneg (by omega : (0 : ℤ) ≤ N)
      exact_mod_cast congrArg (fun z : ℤ => (z : ℚ)) h
    have hne : ((N : ℚ) - 1) ≠ 0 := by
      rw [← hNQ]
      have : (2 : ℚ) ≤ (N.toNat : ℚ) := by exact_mod_cast hn2
      intro hc
      nlinarith
    unfold makeSphericalMesh at hm
    rw [if_pos (by omega)] at hm
    simp only [npMeshgrid, Option.some.injEq, Prod.mk.injEq] at hm
    obtain ⟨hpa, haz⟩ := hm
    have hpl : (npLinspace 0 1 N.toNat).length = N.toNat := npLinspace_length 0 1 N.toNat
    have hal : (npLinspace (-1) 1 N.toNat).length = N.toNat := npLinspace_length (-1) 1 N.toNat
    have hrow : ∀ r ∈ pa, r = npLinspace 0 1 N.toNat := by
      intro r hr
      rw [← hpa] at hr
      obtain ⟨v, hv, he⟩ := List.mem_map.mp hr
      exact he.symm
    have hazrow : ∀ i, i < N.toNat →
        az.getD i [] = (npLinspace 0 1 N.toNat).map
          (fun _ => (npLinspace (-1) 1 N.toNat).getD i 0) := by
      intro i hi
      have hil : i < ((npLinspace (-1) 1 N.toNat).map
          (fun v => (npLinspace 0 1 N.toNat).map (fun _ => v))).length := by
        simpa [hal] using hi
      rw [← haz, List.getD_eq_getElem _ _ hil, List.getElem_map]
      congr 1
      rw [List.getD_eq_getElem _ _ (by omega : i < (npLinspace (-1) 1 N.toNat).length)]
    have hazval : ∀ i j, i < N.toNat → j < N.toNat →
        (az.getD i []).getD j 0 = (npLinspace (-1) 1 N.toNat).getD i 0 := by
      intro i j hi hj
      rw [hazrow i hi]
      have hjl : j < ((npLinspace 0 1 N.toNat).map
          (fun _ => (npLinspace (-1) 1 N.toNat).getD i 0)).length := by
        simpa [hpl] using hj
      rw [List.getD_eq_getElem _ _ hjl, List.getElem_map]
    refine ⟨?_, ?_, ?_, ?_, ?_, ?_, ?_, ?_⟩
    · rw [← hpa]
      simp [hal]
    · rw [← haz]
      simp [hal]
    · intro r hr
      rw [hrow r hr]
      exact hpl
    · intro r hr
      rw [← haz] at hr
      obtain ⟨v, hv, he⟩ := List.mem_map.mp hr
      rw [← he]
      simpa using hpl
    · intro r hr
      rw [hrow r hr]
      refine ⟨?_, ?_, ?_⟩
      · rw [npLinspace_getD 0 1 N.toNat 0 hn2 (by omega)]
        norm_num
      · rw [npLinspace_getD 0 1 N.toNat (N.toNat - 1) hn2 (by omega)]
        have hc : ((N.toNat - 1 : ℕ) : ℚ) = (N : ℚ) - 1 := by
          rw [← hNQ]
          push_cast [Nat.cast_sub (by omega : 1 ≤ N.toNat)]
          ring
        rw [hc, hNQ]
        field_simp
      · intro j hj
        rw [npLinspace_getD 0 1 N.toNat (j + 1) hn2 (by omega),
          npLinspace_getD 0 1 N.toNat j hn2 (by omega)]
        rw [← hNQ]
        push_cast
        ring
    · intro j hj
      rw [hazval 0 j (by omega) hj, npLinspace_getD (-1) 1 N.toNat 0 hn2 (by omega)]
      norm_num
    · intro j hj
      rw [hazval (N.toNat - 1) j (by omega) hj,
        npLinspace_getD (-1) 1 N.toNat (N.toNat - 1) hn2 (by omega)]
      have hc : ((N.toNat - 1 : ℕ) : ℚ) = (N : ℚ) - 1 := by
        rw [← hNQ]
        push_cast [Nat.cast_sub (by omega : 1 ≤ N.toNat)]
        ring
      rw [hc, hNQ]
      field_simp
    · intro i j hi hj
      rw [hazval (i + 1) j (by omega) hj, hazval i j (by omega) hj,
        npLinspace_getD (-1) 1 N.toNat (i + 1) hn2 (by omega),
        npLinspace_getD (-1) 1 N.toNat i hn2 (by omega)]
      rw [← hNQ]
      push_cast
      ring


/-- C8, counterexample: the claim quantifies over every integer N > 0,
but at N = 1 the constructor succeeds and returns the 1 x 1 arrays
[[0]] and [[-pi]]: the polar-angle values do not reach pi (the value 1 in
units of pi), so they do not span 0 to pi inclusive. -/
theorem makeSphericalMesh_one_C8 :
    makeSphericalMesh 1 = some ([[(0 : ℚ)]], [[(-1 : ℚ)]]) ∧
    (0 : ℤ) < 1 ∧ ¬ ((1 : ℚ) ∈ [(0 : ℚ)]) := by
  with_unfolding_all decide

/-- C8, witness for the amended theorem: instantiated at N = -1 (failed
precondition) and at N = 5, where the mesh is the concrete pair
(meshPolar5, meshAzimuth5), the polar row runs 0, 1/4, 1/2, 3/4, 1 in
units of pi with spacing 1/4, and the azimuth rows run from -1 to 1. -/
theorem makeSphericalMesh_spec_C8_witness :
    makeSphericalMesh (-1) = none ∧
    meshPolar5.length = 5 ∧
    (meshPolar5.getD 2 []).getD 0 0 = 0 ∧
    (meshPolar5.getD 2 []).getD 4 0 = 1 ∧
    (meshPolar5.getD 2 []).getD 3 0 - (meshPolar5.getD 2 []).getD 2 0 = 1/4 ∧
    (meshAzimuth5.getD 0 []).getD 1 0 = -1 ∧
    (meshAzimuth5.getD 4 []).getD 1 0 = 1 := by
  have hm : makeSphericalMesh 5 = some (meshPolar5, meshAzimuth5) := by
    with_unfolding_all decide
  have h := (makeSphericalMesh_spec_C8 5).2 (by omega) meshPolar5 meshAzimuth5 hm
  obtain ⟨h1, _, _, _, h5, h6, h7, _⟩ := h
  have hmem : meshPolar5.getD 2 [] ∈ meshPolar5 := by with_unfolding_all decide
  obtain ⟨ha, hb, hcs⟩ := h5 _ hmem
  have hsp := hcs 2 (by omega)
  refine ⟨(makeSphericalMesh_spec_C8 (-1)).1 (by omega), h1, ha, hb, ?_, ?_, ?_⟩
  · rw [hsp]
    norm_num
  · exact h6 1 (by omega)
  · exact h7 1 (by omega)

/- Helper lemmas about the coverage tracker. -/

theorem findFirstIdx_eq_none_iff (f : α → Bool) (l : List α) :
    findFirstIdx f l = none ↔ ∀ a ∈ l, f a = false := by
  induction l with
  | nil => simp [findFirstIdx]
  | cons a t ih =>
    by_cases h : f a
    · simp [findFirstIdx, h]
    · simp only [findFirstIdx, h, if_neg]
      simp only [Bool.not_eq_true] at h
      simp [Option.map_eq_none', ih, h]

theorem findFirstIdx_eq_some (f : α → Bool) (l : List α) (i : ℕ) (d : α)
    (hi : i < l.length) (hcont : f (l.getD i d) = true)
    (hbefore : ∀ j, j < i → f (l.getD j d) = false) :
    findFirstIdx f l = some i := by
  induction l generalizing i with
  | nil => simp at hi
  | cons a t ih =>
    cases i with
    | zero =>
      simp only [List.getD_cons_zero] at hcont
      simp [findFirstIdx, hcont]
    | succ n =>
      have ha : f a = false := by
        have := hbefore 0 (by omega)
        simpa using this
      have hrec : findFirstIdx f t = some n := by
        refine ih n (by simpa using hi) ?_ ?_
        · simpa using hcont
        · intro j hj
          have := hbefore (j + 1) (by omega)
          simpa using this
      simp [findFirstIdx, ha, hrec]

theorem usp_error_iff (cfn : Cell → Point → Bool) (s : SphereSampling) (p : Point) :
    SphereSampling.update_single_point cfn s p = .error p ↔
      ∀ seg ∈ s.segments, cfn seg p = false := by
  unfold SphereSampling.update_single_point
  constructor
  · intro h seg hseg
    cases hf : findFirstIdx (fun seg => cfn seg p) s.segments with
    | none => exact (findFirstIdx_eq_none_iff _ _).mp hf seg hseg
    | some i => rw [hf] at h; cases h
  · intro hall
    rw [(findFirstIdx_eq_none_iff _ _).mpr hall]

theorem usp_first_ok (cfn : Cell → Point → Bool) (s : SphereSampling) (p : Point)
    (i : ℕ) (hi : i < s.segments.length) (hc : cfn (s.segments.getD i []) p = true)
    (hb : ∀ j, j < i → cfn (s.segments.getD j []) p = false) :
    SphereSampling.update_single_point cfn s p = .ok ⟨s.segments, s.sampled.set i 1⟩ := by
  unfold SphereSampling.update_single_point
  rw [findFirstIdx_eq_some (fun seg => cfn seg p) s.segments i [] hi hc hb]

theorem usp_ok_of_contains (cfn : Cell → Point → Bool) (s : SphereSampling) (p : Point)
    (h : ∃ seg ∈ s.segments, cfn seg p = true) :
    ∃ i : ℕ, SphereSampling.update_single_point cfn s p = .ok ⟨s.segments, s.sampled.set i 1⟩ := by
  unfold SphereSampling.update_single_point
  cases hf : findFirstIdx (fun seg => cfn seg p) s.segments with
  | none =>
    obtain ⟨seg, hseg, hcp⟩ := h
    rw [(findFirstIdx_eq_none_iff _ _).mp hf seg hseg] at hcp
    cases hcp
  | some i => exact ⟨i, rfl⟩

/-- C7: `update_single_point` raises the sampling error (carrying the
point) exactly when no cell contains the point; and when cell i is the
first containing cell in scan order, it marks exactly that cell as
sampled and returns without error. -/
theorem update_single_point_spec_C7 :
    ∀ (cfn : Cell → Point → Bool) (s : SphereSampling) (p : Point),
      (SphereSampling.update_single_point cfn s p = .error p ↔
        ∀ seg ∈ s.segments, cfn seg p = false) ∧
      (∀ i, i < s.segments.length → cfn (s.segments.getD i []) p = true →
        (∀ j, j < i → cfn (s.segments.getD j []) p = false) →
        SphereSampling.update_single_point cfn s p
          = .ok ⟨s.segments, s.sampled.set i 1⟩) :=
  fun cfn s p =>
    ⟨usp_error_iff cfn s p, fun i hi hc hb => usp_first_ok cfn s p i hi hc hb⟩


/-- C7, witness: on the one-cell tracker, a containment test that holds
nowhere makes `update_single_point` raise, and one that holds at cell 0
makes it mark cell 0. -/
theorem update_single_point_spec_C7_witness :
    SphereSampling.update_single_point (fun _ _ => false) trackerN2 ((0 : ℚ), (0 : ℚ))
      = .error (0, 0) ∧
    SphereSampling.update_single_point (fun _ _ => true) trackerN2 ((0 : ℚ), (0 : ℚ))
      = .ok ⟨trackerN2.segments, trackerN2.sampled.set 0 1⟩ := by
  have h1 := (update_single_point_spec_C7 (fun _ _ => false) trackerN2 (0, 0)).1.mpr
    (fun seg _ => rfl)
  have h2 := (update_single_point_spec_C7 (fun _ _ => true) trackerN2 (0, 0)).2 0
    (by decide) rfl (fun j hj => absurd hj (by omega))
  exact ⟨h1, h2⟩

/-- C10: `update` is not atomic on error.  If every point before
position k lands in some cell and the point at position k lands in no
cell, then `update` stops at point k with the sampling error carrying
that point, the state reached is exactly the state after processing the
first k points (their marks are kept, nothing is rolled back), and the
points after position k are never processed. -/
theorem update_not_atomic_C10 :
    ∀ (cfn : Cell → Point → Bool) (s : SphereSampling) (ps : List Point) (k : ℕ),
      k < ps.length →
      (∀ p ∈ ps.take k, ∃ seg ∈ s.segments, cfn seg p = true) →
      (∀ seg ∈ s.segments, cfn seg (ps.getD k (0, 0)) = false) →
      SphereSampling.update cfn s ps
        = ((SphereSampling.update cfn s (ps.take k)).1, some (ps.getD k (0, 0))) ∧
      (SphereSampling.update cfn s (ps.take k)).2 = none := by
  intro cfn s ps
  induction ps generalizing s with
  | nil =>
    intro k hk
    simp at hk
  | cons p rest ih =>
    intro k hk h1 h2
    cases k with
    | zero =>
      have hperr : SphereSampling.update_single_point cfn s p = .error p :=
        (usp_error_iff cfn s p).mpr (by simpa using h2)
      constructor
      · simp only [SphereSampling.update, hperr, List.take_zero, List.getD_cons_zero]
      · rfl
    | succ n =>
      have hp : ∃ seg ∈ s.segments, cfn seg p = true := h1 p (by simp)
      obtain ⟨i, hok⟩ := usp_ok_of_contains cfn s p hp
      have hsegs : (⟨s.segments, s.sampled.set i 1⟩ : SphereSampling).segments = s.segments :=
        rfl
      have h1n : ∀ q ∈ rest.take n,
          ∃ seg ∈ (⟨s.segments, s.sampled.set i 1⟩ : SphereSampling).segments,
            cfn seg q = true := by
        intro q hq
        exact h1 q (by simp [hq])
      have h2n : ∀ seg ∈ (⟨s.segments, s.sampled.set i 1⟩ : SphereSampling).segments,
          cfn seg (rest.getD n (0, 0)) = false := by
        intro seg hseg
        have := h2 seg hseg
        simpa using this
      have ihres := ih ⟨s.segments, s.sampled.set i 1⟩ n (by simpa using hk) h1n h2n
      constructor
      · simp only [SphereSampling.update, hok, List.take_succ_cons, List.getD_cons_succ]
        exact ihres.1
      · simp only [SphereSampling.update, hok, List.take_succ_cons]
        exact ihres.2

/-- C10, witness: on the one-cell tracker with containment test "the
point is (0,0)", the sequence [(0,0), (5,5), (0,0)] fails at position 1:
the error carries (5,5), the state keeps the mark made by the first
point, and the third point is never processed. -/
theorem update_not_atomic_C10_witness :
    SphereSampling.update (fun _ q => decide (q = ((0 : ℚ), (0 : ℚ)))) trackerN2
        [(0, 0), (5, 5), (0, 0)]
      = ((SphereSampling.update (fun _ q => decide (q = ((0 : ℚ), (0 : ℚ)))) trackerN2
          [(0, 0)]).1, some (5, 5)) ∧
    (SphereSampling.update (fun _ q => decide (q = ((0 : ℚ), (0 : ℚ)))) trackerN2
        [(0, 0)]).2 = none := by
  have h := update_not_atomic_C10 (fun _ q => decide (q = ((0 : ℚ), (0 : ℚ)))) trackerN2
    [(0, 0), (5, 5), (0, 0)] 1 (by decide)
    (by
      intro q hq
      refine ⟨[(0, -1), (1, -1), (1, 1), (0, 1)], by decide, ?_⟩
      have : q = ((0 : ℚ), (0 : ℚ)) := by
        simp only [List.take_succ_cons, List.take_zero, List.mem_singleton] at hq
        exact hq
      simp [this])
    (by
      intro seg _
      simp)
  exact h

theorem length_grid_flatten (m : ℕ) (f : ℕ → ℕ → Cell) :
    (((List.range m).map (fun i => (List.range m).map (f i))).flatten).length = m * m := by
  rw [List.length_flatten, List.map_map]
  have h : (List.length ∘ fun i => List.map (f i) (List.range m)) = fun _ => m := by
    funext i
    simp
  rw [h, List.map_const', List.sum_replicate, List.length_range, smul_eq_mul]

theorem npShape_of_rows (rows : List (List ℚ)) (m : ℕ) (hne : rows ≠ [])
    (h : ∀ r ∈ rows, r.length = m) : npShape rows = some (rows.length, m) := by
  cases rows with
  | nil => exact absurd rfl hne
  | cons r t =>
    have hr : r.length = m := h r (by simp)
    have hcond : ((r :: t).all fun row => decide (row.length = r.length)) = true := by
      rw [List.all_eq_true]
      intro x hx
      have hx2 := h x hx
      simp [hx2, hr]
    show (if ((r :: t).all fun row => decide (row.length = r.length)) = true
        then some ((r :: t).length, r.length) else none) = some ((r :: t).length, m)
    rw [if_pos hcond, hr]

theorem getD_set_one_ne_zero (l : List ℚ) (i j : ℕ) (h : l.getD i 0 ≠ 0) :
    (l.set j 1).getD i 0 ≠ 0 := by
  by_cases hij : i = j
  · subst hij
    by_cases hlen : i < l.length
    · rw [List.getD_eq_getElem?_getD]
      simp only [List.getElem?_set_self, hlen, if_true]
      norm_num
    · rw [List.set_eq_of_length_le (by omega)]
      exact h
  · rw [List.getD_eq_getElem?_getD, List.getElem?_set_ne (Ne.symm hij),
      ← List.getD_eq_getElem?_getD]
    exact h

theorem countP_set_one_le (l : List ℚ) (j : ℕ) :
    List.countP (fun v => decide (v ≠ 0)) l
      ≤ List.countP (fun v => decide (v ≠ 0)) (l.set j 1) := by
  induction l generalizing j with
  | nil => simp
  | cons a t ih =>
    cases j with
    | zero =>
      simp only [List.set_cons_zero, List.countP_cons]
      have h1 : (decide ((1 : ℚ) ≠ 0)) = true := by norm_num
      rw [h1, if_pos rfl]
      split_ifs <;> omega
    | succ n =>
      simp only [List.set_cons_succ, List.countP_cons]
      have := ih n
      omega

theorem update_preserves (cfn : Cell → Point → Bool) (s : SphereSampling) (ps : List Point) :
    (SphereSampling.update cfn s ps).1.segments = s.segments ∧
    (SphereSampling.update cfn s ps).1.sampled.length = s.sampled.length ∧
    (∀ i : ℕ, s.sampled.getD i 0 ≠ 0 →
      (SphereSampling.update cfn s ps).1.sampled.getD i 0 ≠ 0) ∧
    SphereSampling.get_count s ≤ SphereSampling.get_count (SphereSampling.update cfn s ps).1 := by
  induction ps generalizing s with
  | nil => exact ⟨rfl, rfl, fun _ h => h, le_refl _⟩
  | cons p rest ih =>
    cases hu : SphereSampling.update_single_point cfn s p with
    | error e =>
      have hupdate : SphereSampling.update cfn s (p :: rest) = (s, some e) := by
        simp only [SphereSampling.update, hu]
      rw [hupdate]
      exact ⟨rfl, rfl, fun _ h => h, le_refl _⟩
    | ok s2 =>
      obtain ⟨i, hi⟩ : ∃ i, s2 = ⟨s.segments, s.sampled.set i 1⟩ := by
        unfold SphereSampling.update_single_point at hu
        cases hf : findFirstIdx (fun seg => cfn seg p) s.segments with
        | none => rw [hf] at hu; cases hu
        | some k =>
          rw [hf] at hu
          cases hu
          exact ⟨k, rfl⟩
      subst hi
      have hupdate : SphereSampling.update cfn s (p :: rest)
          = SphereSampling.update cfn ⟨s.segments, s.sampled.set i 1⟩ rest := by
        simp only [SphereSampling.update, hu]
      rw [hupdate]
      obtain ⟨ih1, ih2, ih3, ih4⟩ := ih ⟨s.segments, s.sampled.set i 1⟩
      refine ⟨ih1, ?_, ?_, ?_⟩
      · rw [ih2]
        simp
      · intro j hj
        exact ih3 j (getD_set_one_ne_zero _ _ _ hj)
      · refine le_trans ?_ ih4
        show List.countP (fun v => decide (v ≠ 0)) s.sampled
          ≤ List.countP (fun v => decide (v ≠ 0)) (s.sampled.set i 1)
        exact countP_set_one_le s.sampled i

theorem runCalls_preserves (cfn : Cell → Point → Bool) (s : SphereSampling)
    (calls : List (List Point)) :
    (runCalls cfn s calls).segments = s.segments ∧
    (runCalls cfn s calls).sampled.length = s.sampled.length ∧
    (∀ i : ℕ, s.sampled.getD i 0 ≠ 0 → (runCalls cfn s calls).sampled.getD i 0 ≠ 0) ∧
    SphereSampling.get_count s ≤ SphereSampling.get_count (runCalls cfn s calls) := by
  induction calls generalizing s with
  | nil => exact ⟨rfl, rfl, fun _ h => h, le_refl _⟩
  | cons c rest ih =>
    have hstep := update_preserves cfn s c
    obtain ⟨ih1, ih2, ih3, ih4⟩ := ih (SphereSampling.update cfn s c).1
    have hrun : runCalls cfn s (c :: rest) = runCalls cfn (SphereSampling.update cfn s c).1 rest :=
      rfl
    rw [hrun]
    exact ⟨ih1.trans hstep.1, ih2.trans hstep.2.1,
      fun i h => ih3 i (hstep.2.2.1 i h), le_trans hstep.2.2.2 ih4⟩

theorem init_spec (N : ℤ) (s0 : SphereSampling) (h : SphereSampling.init N = some s0) :
    s0.segments.length = (N.toNat - 1) * (N.toNat - 1) ∧
    s0.sampled = List.replicate s0.segments.length 0 := by
  by_cases hN : 0 < N
  case neg =>
    have hmesh : makeSphericalMesh N = none := by
      unfold makeSphericalMesh
      rw [if_neg hN]
    unfold SphereSampling.init at h
    rw [hmesh] at h
    cases h
  case pos =>
    have hn1 : 1 ≤ N.toNat := by omega
    have hplen : (npLinspace 0 1 N.toNat).length = N.toNat := npLinspace_length 0 1 N.toNat
    have halen : (npLinspace (-1) 1 N.toNat).length = N.toNat := npLinspace_length (-1) 1 N.toNat
    have hmesh : makeSphericalMesh N
        = some ((npLinspace (-1) 1 N.toNat).map (fun _ => npLinspace 0 1 N.toNat),
            (npLinspace (-1) 1 N.toNat).map
              (fun v => (npLinspace 0 1 N.toNat).map (fun _ => v))) := by
      unfold makeSphericalMesh
      rw [if_pos hN]
      rfl
    have hane : npLinspace (-1) 1 N.toNat ≠ [] := by
      intro hc
      rw [hc] at halen
      simp at halen
      omega
    have hsh1 : npShape ((npLinspace (-1) 1 N.toNat).map (fun _ => npLinspace 0 1 N.toNat))
        = some (N.toNat, N.toNat) := by
      have hs := npShape_of_rows
        ((npLinspace (-1) 1 N.toNat).map (fun _ => npLinspace 0 1 N.toNat)) N.toNat
        (by simpa using hane)
        (by
          intro r hr
          obtain ⟨v, _, he⟩ := List.mem_map.mp hr
          rw [← he]
          exact hplen)
      rw [hs, List.length_map, halen]
    have hsh2 : npShape ((npLinspace (-1) 1 N.toNat).map
          (fun v => (npLinspace 0 1 N.toNat).map (fun _ => v)))
        = some (N.toNat, N.toNat) := by
      have hs := npShape_of_rows
        ((npLinspace (-1) 1 N.toNat).map (fun v => (npLinspace 0 1 N.toNat).map (fun _ => v)))
        N.toNat
        (by simpa using hane)
        (by
          intro r hr
          obtain ⟨v, _, he⟩ := List.mem_map.mp hr
          rw [← he, List.length_map]
          exact hplen)
      rw [hs, List.length_map, halen]
    have hpaths : makePaths
        ((npLinspace (-1) 1 N.toNat).map (fun _ => npLinspace 0 1 N.toNat))
        ((npLinspace (-1) 1 N.toNat).map (fun v => (npLinspace 0 1 N.toNat).map (fun _ => v)))
        = some (((List.range (N.toNat - 1)).map (fun i =>
            (List.range (N.toNat - 1)).map (fun j =>
              [(ent ((npLinspace (-1) 1 N.toNat).map (fun _ => npLinspace 0 1 N.toNat)) i j,
                  ent ((npLinspace (-1) 1 N.toNat).map
                    (fun v => (npLinspace 0 1 N.toNat).map (fun _ => v))) i j),
                (ent ((npLinspace (-1) 1 N.toNat).map (fun _ => npLinspace 0 1 N.toNat)) i (j + 1),
                  ent ((npLinspace (-1) 1 N.toNat).map
                    (fun v => (npLinspace 0 1 N.toNat).map (fun _ => v))) i (j + 1)),
                (ent ((npLinspace (-1) 1 N.toNat).map
                    (fun _ => npLinspace 0 1 N.toNat)) (i + 1) (j + 1),
                  ent ((npLinspace (-1) 1 N.toNat).map
                    (fun v => (npLinspace 0 1 N.toNat).map (fun _ => v))) (i + 1) (j + 1)),
                (ent ((npLinspace (-1) 1 N.toNat).map (fun _ => npLinspace 0 1 N.toNat)) (i + 1) j,
                  ent ((npLinspace (-1) 1 N.toNat).map
                    (fun v => (npLinspace 0 1 N.toNat).map (fun _ => v))) (i + 1) j)]))).flatten) := by
      unfold makePaths
      rw [hsh1, hsh2]
      dsimp only
      rw [if_pos ⟨rfl, rfl⟩]
    unfold SphereSampling.init at h
    rw [hmesh] at h
    simp only [] at h
    rw [hpaths] at h
    simp only [Option.some.injEq] at h
    rw [← h]
    constructor
    · exact length_grid_flatten (N.toNat - 1) _
    · rfl

/-- C6: for every tracker constructed at resolution N, across any
sequence of update calls: the cell list never changes and has exactly
(N-1)^2 cells, a sampled flag once nonzero stays nonzero after any
further calls, `get_count` is non-decreasing, and `get_percentage`
always equals `get_count` divided by the number of cells. -/
theorem coverage_invariants_C6 :
    ∀ (N : ℤ) (cfn : Cell → Point → Bool) (s0 : SphereSampling),
      SphereSampling.init N = some s0 →
      ∀ calls : List (List Point),
        (runCalls cfn s0 calls).segments = s0.segments ∧
        s0.segments.length = (N.toNat - 1) ^ 2 ∧
        (∀ pre post : List (List Point), ∀ i : ℕ,
          (runCalls cfn s0 pre).sampled.getD i 0 ≠ 0 →
          (runCalls cfn (runCalls cfn s0 pre) post).sampled.getD i 0 ≠ 0) ∧
        (∀ pre post : List (List Point),
          SphereSampling.get_count (runCalls cfn s0 pre)
            ≤ SphereSampling.get_count (runCalls cfn (runCalls cfn s0 pre) post)) ∧
        (∀ pre : List (List Point),
          SphereSampling.get_percentage (runCalls cfn s0 pre)
            = (SphereSampling.get_count (runCalls cfn s0 pre) : ℚ)
              / ((runCalls cfn s0 pre).segments.length : ℚ)) := by
  intro N cfn s0 hinit calls
  obtain ⟨hlen, hsamp⟩ := init_spec N s0 hinit
  refine ⟨(runCalls_preserves cfn s0 calls).1, by rw [hlen]; ring, ?_, ?_, ?_⟩
  · intro pre post i h
    exact (runCalls_preserves cfn (runCalls cfn s0 pre) post).2.2.1 i h
  · intro pre post
    exact (runCalls_preserves cfn (runCalls cfn s0 pre) post).2.2.2
  · intro pre
    have h1 : (runCalls cfn s0 pre).sampled.length = s0.sampled.length :=
      (runCalls_preserves cfn s0 pre).2.1
    have h2 : (runCalls cfn s0 pre).segments.length = s0.segments.length := by
      rw [(runCalls_preserves cfn s0 pre).1]
    have h3 : s0.sampled.length = s0.segments.length := by
      rw [hsamp, List.length_replicate]
    unfold SphereSampling.get_percentage SphereSampling.get_count
    rw [h1, h3, h2]

/-- C6, witness: the resolution-2 tracker (one cell) built by `init 2`,
exercised with one update call whose containment test always holds. -/
theorem coverage_invariants_C6_witness :
    (runCalls (fun _ _ => true) trackerN2 [[((1 : ℚ)/2, 0)]]).segments
      = trackerN2.segments ∧
    trackerN2.segments.length = ((2 : ℤ).toNat - 1) ^ 2 ∧
    SphereSampling.get_percentage trackerN2
      = (SphereSampling.get_count trackerN2 : ℚ) / (trackerN2.segments.length : ℚ) ∧
    SphereSampling.get_count trackerN2
      ≤ SphereSampling.get_count (runCalls (fun _ _ => true) trackerN2 [[((1 : ℚ)/2, 0)]]) := by
  have hinit : SphereSampling.init 2 = some trackerN2 := by with_unfolding_all decide
  have h := coverage_invariants_C6 2 (fun _ _ => true) trackerN2 hinit [[((1 : ℚ)/2, 0)]]
  refine ⟨h.1, h.2.1, ?_, ?_⟩
  · exact h.2.2.2.2 []
  · exact h.2.2.2.1 [] [[((1 : ℚ)/2, 0)]]
